import Mathlib

/-!
# ngstd::EvalFunction (src/ngstd/evalfunc.hpp)

A shallow embedding of the inline part of the expression evaluator header:
the opcode enumeration `EVAL_TOKEN`, the bytecode instruction `step` with
its five constructors, `ResultType`, `argtype`, the low-level `Add...`
methods that append to `program`, `Dimension`, and the truthiness helpers
`ToBool` / `CheckReal`.

Conventions of the embedding.
* `double` values are modelled by `Double`: NaN, the two infinities, and
  finite values carried as rationals.  Only comparison `>` and the literal
  `0` are used by the embedded code, and both are exact on doubles.
* `int` / `short int` members are `Int`; the embedded code only stores
  them, it performs no arithmetic on them.
* Pointers (`const double *`, `double (*)(double)`) are addresses (`Nat`).
* The C++ union `UNION_OP` is a sum type recording which member was
  written last.
* A member that a constructor leaves unwritten is `none`.
-/

namespace ngstd

/-! ## double and complex<double> -/

/-- Values of the C++ type `double`: not-a-number, minus infinity, a finite
value, plus infinity.  Both signed zeros are `fin 0` (they compare equal). -/
inductive Double where
  | nan
  | ninf
  | fin (q : ℚ)
  | pinf
  deriving DecidableEq

namespace Double

/-- The `double` obtained from the integer literal `0`. -/
def zero : Double := fin 0

/-- The built-in comparison `a > b` on `double`: false as soon as one side is
NaN, otherwise the order of the extended real line. -/
def gt : Double → Double → Bool
  | fin a, fin b => decide (b < a)
  | fin _, ninf => true
  | pinf, fin _ => true
  | pinf, ninf => true
  | _, _ => false

/-- The position of a `double` on the extended line of rationals, `none` for
NaN.  Used to state what `gt` computes. -/
def ext : Double → Option (WithBot (WithTop ℚ))
  | nan => none
  | ninf => some ⊥
  | fin q => some ((q : WithTop ℚ) : WithBot (WithTop ℚ))
  | pinf => some ((⊤ : WithTop ℚ) : WithBot (WithTop ℚ))

end Double

/-- The type `complex<double>`: a real and an imaginary part. -/
structure complex where
  re : Double
  im : Double
  deriving DecidableEq

/-- The member function `complex<double>::real()`. -/
def complex.real (z : complex) : Double := z.re

/-! ## EVAL_TOKEN -/

/-- The enumerators of `enum EVAL_TOKEN`, in declaration order. -/
inductive EvalFunction.EVAL_TOKEN where
  | ADD | SUB | MULT | DIV | LP | RP
  | COMMA
  | NEG
  | VEC_ADD | VEC_SUB | VEC_SCAL_MULT | SCAL_VEC_MULT | VEC_VEC_MULT | VEC_SCAL_DIV
  | AND | OR | NOT | GREATER | LESS | GREATEREQUAL | LESSEQUAL | EQUAL
  | CONSTANT | IMAG | VARIABLE | FUNCTION | GLOBVAR | END | STRING
  | SIN | COS | TAN | ATAN | ATAN2 | EXP | LOG | ABS | SIGN | SQRT | STEP
  | BESSELJ0 | BESSELY0 | BESSELJ1 | BESSELY1
  deriving DecidableEq, Repr

namespace EvalFunction.EVAL_TOKEN

/-- The enumerator list as written in the source: each enumerator with its
initialiser when it has one (`ADD = '+'`, ..., `NEG = 100`), `none` when it
has none. -/
def declaration : List (EVAL_TOKEN × Option Nat) :=
  [ (ADD, some '+'.toNat), (SUB, some '-'.toNat), (MULT, some '*'.toNat),
    (DIV, some '/'.toNat), (LP, some '('.toNat), (RP, some ')'.toNat),
    (COMMA, some ','.toNat),
    (NEG, some 100),
    (VEC_ADD, none), (VEC_SUB, none), (VEC_SCAL_MULT, none), (SCAL_VEC_MULT, none),
    (VEC_VEC_MULT, none), (VEC_SCAL_DIV, none),
    (AND, none), (OR, none), (NOT, none), (GREATER, none), (LESS, none),
    (GREATEREQUAL, none), (LESSEQUAL, none), (EQUAL, none),
    (CONSTANT, none), (IMAG, none), (VARIABLE, none), (FUNCTION, none), (GLOBVAR, none),
    (END, none), (STRING, none),
    (SIN, none), (COS, none), (TAN, none), (ATAN, none), (ATAN2, none), (EXP, none),
    (LOG, none), (ABS, none), (SIGN, none), (SQRT, none), (STEP, none),
    (BESSELJ0, none), (BESSELY0, none), (BESSELJ1, none), (BESSELY1, none) ]

/-- The C++ rule for enumerator values: an enumerator with an initialiser
takes that value, one without takes the previous enumerator's value plus
one (`next`). -/
def assign : Nat → List (EVAL_TOKEN × Option Nat) → List (EVAL_TOKEN × Nat)
  | _, [] => []
  | _, (t, some v) :: rest => (t, v) :: assign (v + 1) rest
  | next, (t, none) :: rest => (t, next) :: assign (next + 1) rest

/-- The value of every enumerator of `EVAL_TOKEN`. -/
def values : List (EVAL_TOKEN × Nat) := assign 0 declaration

/-- The numeric code of a token (its enumerator value). -/
def code (t : EVAL_TOKEN) : Nat := (values.lookup t).getD 0

/-- The seven tokens written as a character in the declaration. -/
def charTokens : List EVAL_TOKEN := [ADD, SUB, MULT, DIV, LP, RP, COMMA]

/-- The tokens from `NEG` on, in declaration order. -/
def namedTokens : List EVAL_TOKEN :=
  [ NEG,
    VEC_ADD, VEC_SUB, VEC_SCAL_MULT, SCAL_VEC_MULT, VEC_VEC_MULT, VEC_SCAL_DIV,
    AND, OR, NOT, GREATER, LESS, GREATEREQUAL, LESSEQUAL, EQUAL,
    CONSTANT, IMAG, VARIABLE, FUNCTION, GLOBVAR, END, STRING,
    SIN, COS, TAN, ATAN, ATAN2, EXP, LOG, ABS, SIGN, SQRT, STEP,
    BESSELJ0, BESSELY0, BESSELJ1, BESSELY1 ]

end EvalFunction.EVAL_TOKEN

open EvalFunction (EVAL_TOKEN)

/-! ## step -/

/-- The union `step::UNION_OP`, tagged with the member that was written. -/
inductive EvalFunction.UNION_OP where
  /-- a constant value -/
  | val (v : Double)
  /-- a pointer to a global variable -/
  | globvar (p : Nat)
  /-- the input argument number varnum -/
  | varnum (n : Int)
  /-- a pointer to a unary function -/
  | «fun» (f : Nat)
  deriving DecidableEq

open EvalFunction (UNION_OP)

/-- The class `EvalFunction::step`: one step of evaluation.  None of the
constructors writes `vecdim`. -/
structure EvalFunction.step where
  op : EVAL_TOKEN
  operand : UNION_OP
  vecdim : Option Int
  deriving DecidableEq

namespace EvalFunction.step

/-- The constructor `step (EVAL_TOKEN hop)`. -/
def ofToken (hop : EVAL_TOKEN) : step :=
  { op := hop, operand := .val Double.zero, vecdim := none }

/-- The constructor `step (double hval)`. -/
def ofVal (hval : Double) : step :=
  { op := .CONSTANT, operand := .val hval, vecdim := none }

/-- The constructor `step (int varnum)`. -/
def ofVarnum (varnum : Int) : step :=
  { op := .VARIABLE, operand := .varnum varnum, vecdim := none }

/-- The constructor `step (const double * aglobvar)`. -/
def ofGlobvar (aglobvar : Nat) : step :=
  { op := .GLOBVAR, operand := .globvar aglobvar, vecdim := none }

/-- The constructor `step (double (*fun) (double))`. -/
def ofFun (f : Nat) : step :=
  { op := .FUNCTION, operand := .fun f, vecdim := none }

/-- The payload of a step agrees with its opcode: a `CONSTANT` step holds
`val`, a `VARIABLE` step `varnum`, a `GLOBVAR` step `globvar`, a `FUNCTION`
step `fun`.  Other opcodes use no payload. -/
def payloadValid (s : step) : Bool :=
  match s.op, s.operand with
  | .CONSTANT, .val _ => true
  | .CONSTANT, _ => false
  | .VARIABLE, .varnum _ => true
  | .VARIABLE, _ => false
  | .GLOBVAR, .globvar _ => true
  | .GLOBVAR, _ => false
  | .FUNCTION, .fun _ => true
  | .FUNCTION, _ => false
  | _, _ => true

end EvalFunction.step

open EvalFunction (step)

/-! ## ResultType and argtype -/

/-- The class `EvalFunction::ResultType`. -/
structure EvalFunction.ResultType where
  vecdim : Int
  isbool : Bool
  iscomplex : Bool
  deriving DecidableEq

/-- The constructor `ResultType ()`. -/
def EvalFunction.ResultType.default : EvalFunction.ResultType :=
  { vecdim := 1, isbool := false, iscomplex := false }

/-- The struct `EvalFunction::argtype`. -/
structure EvalFunction.argtype where
  argnum : Int
  dim : Int
  iscomplex : Bool
  deriving DecidableEq

namespace EvalFunction.argtype

/-- The constructor `argtype ()`. -/
def default : argtype := { argnum := -1, dim := 1, iscomplex := false }

/-- The constructor `argtype (int aanum, int adim = 1, bool acomplex = false)`
called with all three arguments. -/
def ofArgs (aanum : Int) (adim : Int) (acomplex : Bool) : argtype :=
  { argnum := aanum, dim := adim, iscomplex := acomplex }

/-- The same constructor called as `argtype (aanum, adim)`: the default
argument `acomplex = false` is supplied. -/
def ofArgnumDim (aanum : Int) (adim : Int) : argtype := ofArgs aanum adim false

/-- The same constructor called as `argtype (aanum)`: the default arguments
`adim = 1` and `acomplex = false` are supplied. -/
def ofArgnum (aanum : Int) : argtype := ofArgs aanum 1 false

end EvalFunction.argtype

/-! ## EvalFunction -/

/-- The class `EvalFunction`, restricted to the data members read or written
by the embedded member functions and the scalar state of the tokenizer.
`program` is the `Array<step>` seen as the list of its elements, first
element first.  The stream pointer `ist`, the buffer `string_value`, the
pointer `globvar` and the symbol tables are left out: no embedded member
function reads or writes them.  `cerr` is the text written so far to the
standard error stream. -/
structure EvalFunction where
  program : List step
  res_type : EvalFunction.ResultType
  eps : Double
  token : EVAL_TOKEN
  num_value : Double
  var_num : Int
  var_dim : Int
  num_arguments : Int
  deriving DecidableEq

namespace EvalFunction

/-- Modelled from the spec: `Array<step>::Append`, from the array header that
is not part of the sources at hand.  The spec calls the program "an ordered,
append-only-during-compile ... sequence of Steps" filled by the
"append-constant, append-argument-push, ..." calls, so `Append` puts the new
element behind the existing ones. -/
def Append (program : List step) (s : step) : List step := program ++ [s]

/-- The member function `Dimension`: vector dimension of result. -/
def Dimension (e : EvalFunction) : Int := e.res_type.vecdim

/-- The member function `AddConstant`: push constant on stack. -/
def AddConstant (e : EvalFunction) (val : Double) : EvalFunction :=
  { e with program := Append e.program (step.ofVal val) }

/-- The member function `AddVariable`: push variable x[varnum-1]. -/
def AddVariable (e : EvalFunction) (varnum : Int) : EvalFunction :=
  { e with program := Append e.program (step.ofVarnum varnum) }

/-- The member function `AddGlobVariable`: push pointer to global double value. -/
def AddGlobVariable (e : EvalFunction) (dp : Nat) : EvalFunction :=
  { e with program := Append e.program (step.ofGlobvar dp) }

/-- The member function `AddOperation`: push operation. -/
def AddOperation (e : EvalFunction) (op : EVAL_TOKEN) : EvalFunction :=
  { e with program := Append e.program (step.ofToken op) }

/-- The member function `AddFunction`: push function call. -/
def AddFunction (e : EvalFunction) (f : Nat) : EvalFunction :=
  { e with program := Append e.program (step.ofFun f) }

/-- The accessor `GetToken`: returns last token. -/
def GetToken (e : EvalFunction) : EVAL_TOKEN := e.token

/-- The accessor `GetNumValue`: returns num_value of last token. -/
def GetNumValue (e : EvalFunction) : Double := e.num_value

/-- The accessor `GetVariableNumber`. -/
def GetVariableNumber (e : EvalFunction) : Int := e.var_num

/-- The accessor `GetVariableDimension`. -/
def GetVariableDimension (e : EvalFunction) : Int := e.var_dim

/-- The overload `bool ToBool (double x) const`: `return x > eps;`. -/
def ToBool (e : EvalFunction) (x : Double) : Bool := Double.gt x e.eps

/-- The overload `bool ToBool (complex<double> x) const`:
`return x.real() > eps;`. -/
def ToBool_complex (e : EvalFunction) (x : complex) : Bool := Double.gt x.real e.eps

/-- The overload `double CheckReal (double x) const`: `return x;`. -/
def CheckReal (_e : EvalFunction) (x : Double) : Double := x

/-- The overload `double CheckReal (complex<double> x) const`: writes the line
"illegal complex value" to `cerr` and returns 0.  The result pairs the
returned value with the new content of `cerr`. -/
def CheckReal_complex (_e : EvalFunction) (_x : complex) (cerr : String) :
    Double × String :=
  (Double.zero, cerr ++ "illegal complex value\n")

/-- Modelled from the spec: the scan behind `IsConstant` (whose body is not in
the header): false at the first `VARIABLE` or `GLOBVAR` step, true when the
end of the program is reached. -/
def IsConstant.scan : List step → Bool
  | [] => true
  | s :: rest =>
    if s.op = EVAL_TOKEN.VARIABLE ∨ s.op = EVAL_TOKEN.GLOBVAR then false
    else IsConstant.scan rest

/-- Modelled from the spec: `IsConstant`, declared in the header and defined in
a source file that is not at hand.  The spec: "true iff the Program contains
no argument-slot or external-variable-push opcode".  Written as a scan of
the program. -/
def IsConstant (e : EvalFunction) : Bool := IsConstant.scan e.program

/-- One call of the low-level construction interface. -/
inductive Call where
  | AddConstant (val : Double)
  | AddVariable (varnum : Int)
  | AddGlobVariable (dp : Nat)
  | AddOperation (op : EVAL_TOKEN)
  | AddFunction (f : Nat)
  deriving DecidableEq

/-- The calls that leave the payload fitting the opcode: every call except
`AddOperation` with an opcode whose payload is not `val`. -/
def Call.payloadSafe : Call → Bool
  | .AddOperation op =>
    !(op = EVAL_TOKEN.VARIABLE ∨ op = EVAL_TOKEN.GLOBVAR ∨ op = EVAL_TOKEN.FUNCTION)
  | _ => true

/-- Perform one call on a unit. -/
def Call.run (e : EvalFunction) : Call → EvalFunction
  | .AddConstant val => e.AddConstant val
  | .AddVariable varnum => e.AddVariable varnum
  | .AddGlobVariable dp => e.AddGlobVariable dp
  | .AddOperation op => e.AddOperation op
  | .AddFunction f => e.AddFunction f

/-- The step a call appends. -/
def Call.emitted : Call → step
  | .AddConstant val => step.ofVal val
  | .AddVariable varnum => step.ofVarnum varnum
  | .AddGlobVariable dp => step.ofGlobvar dp
  | .AddOperation op => step.ofToken op
  | .AddFunction f => step.ofFun f

/-- Perform a sequence of calls, first call first. -/
def runCalls (e : EvalFunction) : List Call → EvalFunction
  | [] => e
  | c :: cs => runCalls (c.run e) cs

/-- A unit with an empty `program` and the default `ResultType`, for concrete
examples.  The tolerance `eps` is set by the constructors, which are defined
outside the header, and is a parameter here. -/
def empty (eps : Double) : EvalFunction :=
  { program := [], res_type := ResultType.default, eps := eps,
    token := EVAL_TOKEN.END, num_value := Double.zero, var_num := 0, var_dim := 0,
    num_arguments := 0 }

end EvalFunction

end ngstd

/-! # Properties -/

namespace ngstd

open EvalFunction (EVAL_TOKEN UNION_OP step)

/-- The comparison `a > b` holds exactly when neither side is NaN and `a` lies
strictly above `b` on the extended line. -/
theorem Double.gt_iff_ext (a b : Double) :
    Double.gt a b = true ↔ ∃ u v, a.ext = some u ∧ b.ext = some v ∧ v < u := by
  cases a <;> cases b <;> simp [Double.gt, Double.ext]
  case pinf.fin q =>
    rw [← WithBot.coe_top, WithBot.coe_lt_coe]
    exact WithTop.coe_lt_top q

/-- No `double` compares greater than itself. -/
theorem Double.gt_self (a : Double) : Double.gt a a = false := by
  cases a <;> simp [Double.gt]

namespace EvalFunction

/-- Every call appends the step it emits and touches nothing else. -/
theorem Call.run_eq (e : EvalFunction) (c : Call) :
    c.run e = { e with program := e.program ++ [c.emitted] } := by
  cases c <;> rfl

/-- The program after a sequence of calls is the old program followed by the
emitted steps, in call order. -/
theorem runCalls_program (cs : List Call) (e : EvalFunction) :
    (runCalls e cs).program = e.program ++ cs.map Call.emitted := by
  induction cs generalizing e with
  | nil => simp [runCalls]
  | cons c cs ih => simp [runCalls, ih, Call.run_eq]

/-- A sequence of calls leaves the result type alone. -/
theorem runCalls_res_type (cs : List Call) (e : EvalFunction) :
    (runCalls e cs).res_type = e.res_type := by
  induction cs generalizing e with
  | nil => rfl
  | cons c cs ih => simp [runCalls, ih, Call.run_eq]

/-- The scan answers true exactly on programs without a `VARIABLE` or
`GLOBVAR` step. -/
theorem IsConstant.scan_iff (prog : List step) :
    IsConstant.scan prog = true ↔
      ∀ s ∈ prog, s.op ≠ EVAL_TOKEN.VARIABLE ∧ s.op ≠ EVAL_TOKEN.GLOBVAR := by
  induction prog with
  | nil => simp [IsConstant.scan]
  | cons s rest ih =>
    by_cases h : s.op = EVAL_TOKEN.VARIABLE ∨ s.op = EVAL_TOKEN.GLOBVAR
    · simp only [IsConstant.scan, if_pos h, List.mem_cons, forall_eq_or_imp]
      constructor
      · intro hf; cases hf
      · rintro ⟨⟨h1, h2⟩, -⟩
        rcases h with h | h
        · exact absurd h h1
        · exact absurd h h2
    · simp only [IsConstant.scan, if_neg h, List.mem_cons, forall_eq_or_imp, ih]
      constructor
      · intro hr
        exact ⟨⟨fun h1 => h (Or.inl h1), fun h2 => h (Or.inr h2)⟩, hr⟩
      · exact fun hr => hr.2

/-- The step emitted by a call has a fitting payload exactly when the call is
payload-safe. -/
theorem Call.emitted_payloadValid (c : Call) :
    c.emitted.payloadValid = c.payloadSafe := by
  cases c with
  | AddOperation op => cases op <;> rfl
  | _ => rfl

/-! ## Truthiness -/

/-- C1: for every value `x` and every tolerance `eps`, `ToBool (x)` is true
exactly when `x > eps` strictly: it is the built-in comparison with `eps`,
which holds exactly when neither value is NaN and `x` lies strictly above
`eps`; on finite values it is the strict order of the numbers; and at the
boundary `ToBool (eps)` is false. -/
theorem ToBool_true_iff_exceeds_eps :
    (∀ (e : EvalFunction) (x : Double),
        e.ToBool x = true ↔ ∃ u v, x.ext = some u ∧ e.eps.ext = some v ∧ v < u) ∧
    (∀ (e : EvalFunction) (x eps : ℚ),
        ({ e with eps := Double.fin eps }).ToBool (Double.fin x) = true ↔ eps < x) ∧
    (∀ e : EvalFunction, e.ToBool e.eps = false) := by
  refine ⟨fun e x => ?_, fun e x eps => ?_, fun e => ?_⟩
  · exact Double.gt_iff_ext x e.eps
  · simp [ToBool, Double.gt]
  · exact Double.gt_self e.eps

/-- C5: in the complex domain the truthiness test looks at the real part only:
`ToBool (z)` equals `ToBool (Re z)`, it is true exactly when `Re z > eps`, and
two values with the same real part get the same answer whatever their
imaginary parts. -/
theorem ToBool_complex_eq_ToBool_real :
    (∀ (e : EvalFunction) (z : complex), e.ToBool_complex z = e.ToBool z.real) ∧
    (∀ (e : EvalFunction) (z : complex),
        e.ToBool_complex z = true ↔
          ∃ u v, z.re.ext = some u ∧ e.eps.ext = some v ∧ v < u) ∧
    (∀ (e : EvalFunction) (re im im2 : Double),
        e.ToBool_complex ⟨re, im⟩ = e.ToBool_complex ⟨re, im2⟩) := by
  refine ⟨fun e z => rfl, fun e z => ?_, fun e re im im2 => rfl⟩
  exact Double.gt_iff_ext z.re e.eps

/-- C6: `CheckReal` always returns: on a real `x` it returns `x` unchanged; on
a complex `z` it returns the real value 0 whatever `z` is (and adds its
diagnostic line to `cerr`); so the truthiness of a degraded complex operand,
`ToBool (CheckReal (z))`, is the same for all `z`, namely that of 0. -/
theorem CheckReal_total_zero_substitution :
    (∀ (e : EvalFunction) (x : Double), e.CheckReal x = x) ∧
    (∀ (e : EvalFunction) (z : complex) (cerr : String),
        e.CheckReal_complex z cerr = (Double.fin 0, cerr ++ "illegal complex value\n")) ∧
    (∀ (e : EvalFunction) (z w : complex) (cerr cerr2 : String),
        e.ToBool (e.CheckReal_complex z cerr).1 = e.ToBool (e.CheckReal_complex w cerr2).1) ∧
    (∀ (e : EvalFunction) (z : complex) (cerr : String),
        e.ToBool (e.CheckReal_complex z cerr).1 = e.ToBool (Double.fin 0)) :=
  ⟨fun _ _ => rfl, fun _ _ _ => rfl, fun _ _ _ _ _ => rfl, fun _ _ _ => rfl⟩

/-! ## Argument entries -/

/-- C7: an argument entry records what it was built from, with the declared
defaults: `argtype (n)` has argnum `n`, width 1 and is not complex;
`argtype (n, d, c)` has argnum `n`, width `d` and complex flag `c`. -/
theorem argtype_records_arguments :
    (∀ n : Int, (argtype.ofArgnum n).argnum = n ∧ (argtype.ofArgnum n).dim = 1 ∧
        (argtype.ofArgnum n).iscomplex = false) ∧
    (∀ (n d : Int) (c : Bool), (argtype.ofArgs n d c).argnum = n ∧
        (argtype.ofArgs n d c).dim = d ∧ (argtype.ofArgs n d c).iscomplex = c) :=
  ⟨fun _ => ⟨rfl, rfl, rfl⟩, fun _ _ _ => ⟨rfl, rfl, rfl⟩⟩

/-! ## The construction interface -/

/-- C2: each append call puts at the end of the program a step with the opcode
and payload of its kind: `AddConstant (v)` a `CONSTANT` step with value `v`,
`AddVariable (n)` a `VARIABLE` step with argument number `n`,
`AddGlobVariable (p)` a `GLOBVAR` step with pointer `p`, `AddFunction (f)` a
`FUNCTION` step with function pointer `f`, `AddOperation (op)` a step with
opcode `op`; for every unit and every argument. -/
theorem Add_appends_step_of_its_kind :
    (∀ (e : EvalFunction) (v : Double),
        (e.AddConstant v).program.getLast?.map (fun s => (s.op, s.operand))
          = some (EVAL_TOKEN.CONSTANT, UNION_OP.val v)) ∧
    (∀ (e : EvalFunction) (n : Int),
        (e.AddVariable n).program.getLast?.map (fun s => (s.op, s.operand))
          = some (EVAL_TOKEN.VARIABLE, UNION_OP.varnum n)) ∧
    (∀ (e : EvalFunction) (p : Nat),
        (e.AddGlobVariable p).program.getLast?.map (fun s => (s.op, s.operand))
          = some (EVAL_TOKEN.GLOBVAR, UNION_OP.globvar p)) ∧
    (∀ (e : EvalFunction) (f : Nat),
        (e.AddFunction f).program.getLast?.map (fun s => (s.op, s.operand))
          = some (EVAL_TOKEN.FUNCTION, UNION_OP.fun f)) ∧
    (∀ (e : EvalFunction) (op : EVAL_TOKEN),
        (e.AddOperation op).program.getLast?.map (fun s => s.op) = some op) := by
  refine ⟨fun e v => ?_, fun e n => ?_, fun e p => ?_, fun e f => ?_, fun e op => ?_⟩ <;>
    simp [AddConstant, AddVariable, AddGlobVariable, AddFunction, AddOperation, Append,
      step.ofVal, step.ofVarnum, step.ofGlobvar, step.ofFun, step.ofToken]

/-- C3: the program is append-only under the construction interface: after any
one of `AddConstant`, `AddVariable`, `AddGlobVariable`, `AddOperation`,
`AddFunction` the program is the old program followed by one new step, so it
is exactly one step longer and its earlier steps are the old ones, unchanged
and in the same order. -/
theorem Add_program_append_only :
    (∀ (e : EvalFunction) (v : Double),
        (e.AddConstant v).program = e.program ++ [step.ofVal v]) ∧
    (∀ (e : EvalFunction) (n : Int),
        (e.AddVariable n).program = e.program ++ [step.ofVarnum n]) ∧
    (∀ (e : EvalFunction) (p : Nat),
        (e.AddGlobVariable p).program = e.program ++ [step.ofGlobvar p]) ∧
    (∀ (e : EvalFunction) (op : EVAL_TOKEN),
        (e.AddOperation op).program = e.program ++ [step.ofToken op]) ∧
    (∀ (e : EvalFunction) (f : Nat),
        (e.AddFunction f).program = e.program ++ [step.ofFun f]) ∧
    (∀ (e : EvalFunction) (c : Call),
        (c.run e).program.length = e.program.length + 1 ∧
        (c.run e).program.take e.program.length = e.program ∧
        (c.run e).program.drop e.program.length = [c.emitted]) := by
  refine ⟨fun _ _ => rfl, fun _ _ => rfl, fun _ _ => rfl, fun _ _ => rfl, fun _ _ => rfl,
    fun e c => ?_⟩
  simp [Call.run_eq]

/-- C9: the construction interface never changes the result type: after any
sequence of `AddConstant` / `AddVariable` / `AddGlobVariable` / `AddOperation`
/ `AddFunction` calls the result type (width, boolean flag, complex flag) and
`Dimension ()` are what they were before; a unit with the default result type
still has `Dimension () == 1` however many steps are appended. -/
theorem Add_calls_keep_res_type :
    (∀ (e : EvalFunction) (cs : List Call),
        (runCalls e cs).res_type.vecdim = e.res_type.vecdim ∧
        (runCalls e cs).res_type.isbool = e.res_type.isbool ∧
        (runCalls e cs).res_type.iscomplex = e.res_type.iscomplex ∧
        (runCalls e cs).Dimension = e.Dimension) ∧
    (∀ (e : EvalFunction) (cs : List Call),
        (runCalls { e with res_type := ResultType.default } cs).Dimension = 1 ∧
        (runCalls { e with res_type := ResultType.default } cs).res_type.isbool = false ∧
        (runCalls { e with res_type := ResultType.default } cs).res_type.iscomplex = false) := by
  refine ⟨fun e cs => ?_, fun e cs => ?_⟩
  · simp [Dimension, runCalls_res_type]
  · simp [Dimension, runCalls_res_type, ResultType.default]

/-- C4: for every program, `IsConstant ()` is true exactly when the program has
no `VARIABLE` step and no `GLOBVAR` step; for a program built through the
construction interface, exactly when the program built on had none and no call
appended one. -/
theorem IsConstant_iff_no_variable_step :
    (∀ e : EvalFunction,
        e.IsConstant = true ↔
          ∀ s ∈ e.program, s.op ≠ EVAL_TOKEN.VARIABLE ∧ s.op ≠ EVAL_TOKEN.GLOBVAR) ∧
    (∀ (e : EvalFunction) (cs : List Call),
        (runCalls e cs).IsConstant = true ↔
          e.IsConstant = true ∧
          ∀ c ∈ cs, c.emitted.op ≠ EVAL_TOKEN.VARIABLE ∧ c.emitted.op ≠ EVAL_TOKEN.GLOBVAR) := by
  refine ⟨fun e => IsConstant.scan_iff e.program, fun e cs => ?_⟩
  simp only [IsConstant, IsConstant.scan_iff, runCalls_program, List.mem_append, List.mem_map]
  constructor
  · intro h
    exact ⟨fun s hs => h s (Or.inl hs), fun c hc => h c.emitted (Or.inr ⟨c, hc, rfl⟩)⟩
  · rintro ⟨h1, h2⟩ s (hs | ⟨c, hc, rfl⟩)
    · exact h1 s hs
    · exact h2 c hc

/-- C8, as stated, fails: `AddOperation (VARIABLE)` on an empty program leaves
a `VARIABLE` step whose payload is the value 0, not an argument number. -/
theorem AddOperation_VARIABLE_payload_mismatch :
    ((EvalFunction.empty (Double.fin 0)).AddOperation EVAL_TOKEN.VARIABLE).program
        = [{ op := EVAL_TOKEN.VARIABLE, operand := UNION_OP.val (Double.fin 0), vecdim := none }] ∧
    ((EvalFunction.empty (Double.fin 0)).AddOperation EVAL_TOKEN.VARIABLE).program.all
        step.payloadValid = false := by
  constructor
  · rfl
  · rfl

/-- C8, amended: a step appended by `AddConstant`, `AddVariable`,
`AddGlobVariable` or `AddFunction` carries the payload that fits its opcode,
and a step appended by `AddOperation (op)` carries the value 0, which fits
unless `op` is `VARIABLE`, `GLOBVAR` or `FUNCTION`.  So all steps of the
program after a sequence of calls fit exactly when all steps before did and no
call was `AddOperation` with one of these three opcodes. -/
theorem payloadValid_after_calls :
    (∀ (e : EvalFunction) (op : EVAL_TOKEN),
        (e.AddOperation op).program.getLast?.map (fun s => s.operand)
          = some (UNION_OP.val (Double.fin 0))) ∧
    (∀ (e : EvalFunction) (cs : List Call),
        (runCalls e cs).program.all step.payloadValid
          = (e.program.all step.payloadValid && cs.all Call.payloadSafe)) := by
  refine ⟨fun e op => ?_, fun e cs => ?_⟩
  · simp [AddOperation, Append, step.ofToken, Double.zero]
  · rw [runCalls_program, List.all_append]
    congr 1
    induction cs with
    | nil => rfl
    | cons c cs ih => simp only [List.map_cons, List.all_cons, ih, Call.emitted_payloadValid]

/-! ## Opcode values -/

/-- C10: the numeric codes of the `EVAL_TOKEN` opcodes are pairwise distinct:
the seven single-character tokens have the codes of their characters, all
below 100; the named tokens have the consecutive codes 100 (`NEG`) to 136
(`BESSELY1`); every token is one or the other; and no two tokens share a
code. -/
theorem EVAL_TOKEN_codes_distinct :
    EVAL_TOKEN.charTokens.map EVAL_TOKEN.code = [43, 45, 42, 47, 40, 41, 44] ∧
    EVAL_TOKEN.charTokens.map EVAL_TOKEN.code
      = ['+', '-', '*', '/', '(', ')', ','].map Char.toNat ∧
    (∀ t ∈ EVAL_TOKEN.charTokens, EVAL_TOKEN.code t < 100) ∧
    EVAL_TOKEN.namedTokens.map EVAL_TOKEN.code = List.range' 100 37 ∧
    EVAL_TOKEN.code EVAL_TOKEN.NEG = 100 ∧
    EVAL_TOKEN.code EVAL_TOKEN.BESSELY1 = 136 ∧
    (∀ t : EVAL_TOKEN, t ∈ EVAL_TOKEN.charTokens ++ EVAL_TOKEN.namedTokens) ∧
    Function.Injective EVAL_TOKEN.code := by
  have hall : ∀ t : EVAL_TOKEN, t ∈ EVAL_TOKEN.charTokens ++ EVAL_TOKEN.namedTokens := by
    intro t; cases t <;> decide
  have hnd : ((EVAL_TOKEN.charTokens ++ EVAL_TOKEN.namedTokens).map EVAL_TOKEN.code).Nodup := by
    decide
  refine ⟨by decide, by decide, by decide, by decide, by decide, by decide, hall, ?_⟩
  intro a b hab
  exact List.inj_on_of_nodup_map hnd (hall a) (hall b) hab

end EvalFunction

end ngstd
